/-
Verification development for the realtime voice session adapter
(`useRealtime` hook and its module-level audio helpers).

The adapter manages a streaming session with a speech-to-speech AI
service: microphone capture -> resampling -> PCM16 encoding ->
append events; inbound event dispatch (transcript accumulation,
duplicate-emission guard, function-call round trips, error
surfacing); and scheduled audio playback driven by a running
`nextPlayTime` cursor.

The embedding below is a shallow model of that source: browser
ambient inputs (the audio context's `currentTime`, microphone
access success, the base64 payload decoded to PCM16 samples, the
result of the `/api/functions` fetch) are passed as explicit
parameters; the mutable refs and React state cells become fields
of an explicit `HookState` record; outbound socket frames and
caller callbacks become lists returned by each operation.
JavaScript floating-point samples are modelled as rationals.
-/
import Mathlib

namespace Realtime

/-- Message roles surfaced to the caller through `onMessage`. -/
inductive Role
  | user
  | assistant
  | system
  deriving DecidableEq, Repr

/-- A message delivered to the caller via the `onMessage` callback
(timestamps are irrelevant to the claims and omitted). -/
structure RealtimeMessage where
  role : Role
  content : String
  deriving DecidableEq, Repr

/-- Outbound protocol frames sent over the socket with `ws.send`. -/
inductive OutEvent
  | sessionUpdate
  | inputAudioAppend (audio : List ℤ)
  | inputAudioCommit
  | inputAudioClear
  | conversationItemCreateText (text : String)
  | functionCallOutput (callId : String) (output : String)
  | responseCreate
  | responseCancel
  deriving DecidableEq, Repr

/-- Invocations of the caller-supplied callbacks, the adapter's
entire output surface besides outbound frames. -/
inductive Callback
  | onMessage (m : RealtimeMessage)
  | onFunctionCall (name : String) (args : String)
  | onError (message : String)
  deriving DecidableEq, Repr

/-- JavaScript `Math.round`: half-way cases round toward positive
infinity, which is `floor (q + 1/2)` for every rational `q`. -/
def jsRound (q : ℚ) : ℤ := ⌊q + 1 / 2⌋

/-- JavaScript `ToInt16`-style truncation toward zero, as applied when
a number is stored into an `Int16Array` (the stored values here never
leave the 16-bit range, so only the truncation matters). -/
def jsTrunc (q : ℚ) : ℤ := if 0 ≤ q then ⌊q⌋ else -⌊-q⌋

/-- Model of `resampleAudio(audioData, sourceSampleRate, targetSampleRate)`:
identity when the rates match, otherwise linear interpolation at
positions `i * sourceRate / targetRate` into a buffer of
`Math.round(length / ratio)` samples.  Out-of-range reads cannot occur
for the lengths produced; `getD _ 0` is the in-bounds access. -/
def resampleAudio (audioData : List ℚ) (sourceSampleRate targetSampleRate : ℕ) :
    List ℚ :=
  if sourceSampleRate = targetSampleRate then audioData
  else
    let sampleRateRatio : ℚ := (sourceSampleRate : ℚ) / (targetSampleRate : ℚ)
    let newLength : ℕ := (jsRound ((audioData.length : ℚ) / sampleRateRatio)).toNat
    (List.range newLength).map fun (i : ℕ) =>
      let position : ℚ := (i : ℚ) * sampleRateRatio
      let index : ℕ := (⌊position⌋).toNat
      let fraction : ℚ := position - (index : ℚ)
      if index + 1 < audioData.length then
        audioData.getD index 0 * (1 - fraction) + audioData.getD (index + 1) 0 * fraction
      else
        audioData.getD index 0

/-- Model of `float32ToPCM16`: clamp each sample to `[-1, 1]`, scale
negatives by `0x8000` and non-negatives by `0x7FFF`, truncating to an
integer as the `Int16Array` store does. -/
def float32ToPCM16 (float32Array : List ℚ) : List ℤ :=
  float32Array.map fun x =>
    let s := max (-1) (min 1 x)
    if s < 0 then jsTrunc (s * 32768) else jsTrunc (s * 32767)

/-- A playback buffer scheduled on the audio context: its start time
(the argument of `source.start`) and its duration in seconds. -/
structure Sched where
  start : ℚ
  duration : ℚ
  deriving DecidableEq, Repr

/-- Duration in seconds of a decoded PCM16 chunk played at the fixed
24000 Hz playback rate (`audioBuffer.duration`). -/
def chunkDuration (samples : List ℤ) : ℚ := (samples.length : ℚ) / 24000

/-- Model of `playAudioChunk`, the scheduling part: clamp the running
`nextPlayTime` cursor up to the context's `currentTime`, start the
buffer at the clamped cursor, then advance the cursor by the buffer's
duration.  Returns the new cursor and the scheduled buffer. -/
def playAudioChunk (nextPlayTime currentTime : ℚ) (samples : List ℤ) :
    ℚ × Sched :=
  let t := if nextPlayTime < currentTime then currentTime else nextPlayTime
  (t + chunkDuration samples, ⟨t, chunkDuration samples⟩)

/-- Fold `playAudioChunk` over a sequence of audio-delta events, each
carrying the context's `currentTime` at arrival and the decoded
samples; collects the scheduled buffers in arrival order. -/
def playAudioChunks (nextPlayTime : ℚ) (events : List (ℚ × List ℤ)) :
    ℚ × List Sched :=
  match events with
  | [] => (nextPlayTime, [])
  | (ct, chunk) :: rest =>
    let step := playAudioChunk nextPlayTime ct chunk
    let tail := playAudioChunks step.1 rest
    (tail.1, step.2 :: tail.2)

/-- State of one `useRealtime` hook instance together with the
module-level playback cursor.  React state cells (`isConnected`,
`isRecording`, `error`) and mutable refs (`currentTranscriptRef`,
`currentResponseIdRef`, `userTranscriptRef`,
`assistantMessageSentRef`) become fields; browser resource handles
(`processorRef`, `streamRef`, `audioContextRef`, `recognitionRef`)
are tracked as presence booleans; `wsOpen` models
`wsRef.current?.readyState === WebSocket.OPEN`. -/
structure HookState where
  isConnected : Bool
  isRecording : Bool
  errorState : Option String
  wsOpen : Bool
  currentTranscript : String
  currentResponseId : Option String
  userTranscript : String
  assistantMessageSent : Bool
  processorActive : Bool
  streamActive : Bool
  audioContextActive : Bool
  recognitionActive : Bool
  nextPlayTime : ℚ
  deriving DecidableEq, Repr

/-- JavaScript truthiness of a nullable string ref such as
`currentResponseIdRef.current`: `null` and the empty string are falsy. -/
def optTruthy (o : Option String) : Bool :=
  match o with
  | some s => s ≠ ""
  | none => false

/-- Inbound socket events, at the granularity the `ws.onmessage`
dispatcher inspects them.  Ambient inputs are carried on the event:
`responseCreated` carries `data.response?.id` and the
`Date.now().toString()` fallback; `audioDelta` carries the playback
context's `currentTime` and the decoded PCM16 samples;
`functionCallDone` carries the outcome of the `/api/functions` fetch
round trip (`Except` error for a thrown/rejected fetch). -/
inductive InEvent
  | sessionCreated
  | sessionUpdated
  | speechStarted
  | speechStopped
  | bufferCommitted
  | responseCreated (id : Option String) (now : String)
  | itemDone (isAssistantMessage : Bool) (transcript : Option String)
  | userTranscriptCompleted (transcript : String)
  | transcriptionFailed
  | audioDelta (currentTime : ℚ) (samples : List ℤ)
  | transcriptDelta (delta : String)
  | transcriptDone
  | functionCallDone (name : String) (args : String) (callId : String)
      (fetchResult : Except String String)
  | responseDone
  | errorEvent (message : String)
  deriving Repr

/-- Model of the `ws.onmessage` switch: each inbound event yields the
next state, the outbound frames sent while handling it, and the
caller callbacks invoked.  `itemDone` is a `conversation.item.done`
whose item is (or is not) an assistant message, with the truthy
transcript of its `output_audio` content part when present. -/
def handleEvent (st : HookState) (ev : InEvent) :
    HookState × List OutEvent × List Callback :=
  match ev with
  | .sessionCreated => (st, [.sessionUpdate], [])
  | .sessionUpdated => (st, [], [])
  | .speechStarted => (st, [], [])
  | .speechStopped => (st, [.responseCancel], [])
  | .bufferCommitted => (st, [], [])
  | .responseCreated id now =>
      let rid := match id with
        | some s => if s ≠ "" then s else now
        | none => now
      ({ st with assistantMessageSent := false,
                 currentTranscript := "",
                 currentResponseId := some rid }, [], [])
  | .itemDone isAssistantMessage transcript =>
      if isAssistantMessage then
        match transcript with
        | some tr =>
          if tr ≠ "" then
            if !st.assistantMessageSent then
              ({ st with assistantMessageSent := true, currentTranscript := "" },
               [], [.onMessage ⟨.assistant, tr⟩])
            else
              ({ st with currentTranscript := "" }, [], [])
          else (st, [], [])
        | none => (st, [], [])
      else (st, [], [])
  | .userTranscriptCompleted transcript =>
      if transcript ≠ "" then
        (st, [], [.onMessage ⟨.user, transcript⟩])
      else (st, [], [])
  | .transcriptionFailed => (st, [], [])
  | .audioDelta currentTime samples =>
      ({ st with nextPlayTime := (playAudioChunk st.nextPlayTime currentTime samples).1 },
       [], [])
  | .transcriptDelta delta =>
      if delta ≠ "" then
        ({ st with currentTranscript := st.currentTranscript ++ delta }, [], [])
      else (st, [], [])
  | .transcriptDone =>
      if st.currentTranscript ≠ "" ∧ !st.assistantMessageSent then
        ({ st with assistantMessageSent := true, currentTranscript := "" },
         [], [.onMessage ⟨.assistant, st.currentTranscript⟩])
      else
        ({ st with currentTranscript := "" }, [], [])
  | .functionCallDone name args callId fetchResult =>
      match fetchResult with
      | .ok result =>
          (st, [.functionCallOutput callId result], [.onFunctionCall name args])
      | .error _ =>
          (st, [], [.onFunctionCall name args])
  | .responseDone => (st, [], [])
  | .errorEvent message => (st, [], [.onError message])

/-- Dispatch a list of inbound events in order, concatenating outbound
frames and callbacks. -/
def processEvents (st : HookState) (events : List InEvent) :
    HookState × List OutEvent × List Callback :=
  match events with
  | [] => (st, [], [])
  | ev :: rest =>
    let step := handleEvent st ev
    let tail := processEvents step.1 rest
    (tail.1, step.2.1 ++ tail.2.1, step.2.2 ++ tail.2.2)

/-- Model of `startRecording`.  `micGranted` is whether
`getUserMedia` succeeds.  While the socket is open: if the response
id ref is truthy, send `response.cancel` and reset the id and the
transcript accumulator; then send `input_audio_buffer.clear` and stop
playback (cursor reset to 0).  Then the user-transcript ref is
cleared and browser speech recognition started.  On microphone
success the capture pipeline is installed and the recording flag set;
on denial the catch sets the error state only. -/
def startRecording (st : HookState) (micGranted : Bool) :
    HookState × List OutEvent × List Callback :=
  let cancelPart : List OutEvent :=
    if optTruthy st.currentResponseId then [.responseCancel] else []
  let out : List OutEvent :=
    if st.wsOpen then cancelPart ++ [.inputAudioClear] else []
  let st1 :=
    if st.wsOpen then
      let stA :=
        if optTruthy st.currentResponseId then
          { st with currentResponseId := none, currentTranscript := "" }
        else st
      { stA with nextPlayTime := 0 }
    else st
  let st2 := { st1 with userTranscript := "", recognitionActive := true }
  if micGranted then
    ({ st2 with streamActive := true, audioContextActive := true,
                processorActive := true, isRecording := true }, out, [])
  else
    ({ st2 with errorState := some "Failed to access microphone" }, out, [])

/-- Outbound frames produced by one `processor.onaudioprocess` capture
callback during recording: when the socket is open, the frame is
resampled to 24 kHz, quantized to PCM16 and sent as one append event;
otherwise nothing is sent. -/
def recordFrameEvents (st : HookState) (frame : List ℚ) (sampleRate : ℕ) :
    List OutEvent :=
  if st.wsOpen then
    [.inputAudioAppend (float32ToPCM16 (resampleAudio frame sampleRate 24000))]
  else []

/-- Model of `stopRecording`: stop speech recognition, deliver the
user message immediately (browser transcript, or the placeholder when
it is empty), clear the user-transcript ref, send
`input_audio_buffer.commit` and `response.create` when the socket is
open, tear down the capture resources and clear the recording flag. -/
def stopRecording (st : HookState) :
    HookState × List OutEvent × List Callback :=
  let userMessage := if st.userTranscript ≠ "" then st.userTranscript else "[Audio message]"
  let out : List OutEvent :=
    if st.wsOpen then [.inputAudioCommit, .responseCreate] else []
  ({ st with userTranscript := "",
             processorActive := false,
             streamActive := false,
             audioContextActive := false,
             recognitionActive := false,
             isRecording := false },
   out,
   [.onMessage ⟨.user, userMessage⟩])

/-- Model of `sendMessage(text)`: when the socket is open, send a
user text `conversation.item.create` followed by `response.create`;
otherwise do nothing at all. -/
def sendMessage (st : HookState) (text : String) :
    HookState × List OutEvent × List Callback :=
  if st.wsOpen then
    (st, [.conversationItemCreateText text, .responseCreate], [])
  else
    (st, [], [])

/-- Assistant-role message contents among a callback trace. -/
def assistantMessages (callbacks : List Callback) : List String :=
  callbacks.filterMap fun c =>
    match c with
    | .onMessage m => if m.role = .assistant then some m.content else none
    | _ => none

/-- User-role message contents among a callback trace. -/
def userMessages (callbacks : List Callback) : List String :=
  callbacks.filterMap fun c =>
    match c with
    | .onMessage m => if m.role = .user then some m.content else none
    | _ => none

/-- The `onError` payloads among a callback trace. -/
def errorCallbacks (callbacks : List Callback) : List String :=
  callbacks.filterMap fun c =>
    match c with
    | .onError message => some message
    | _ => none

/-- Discriminator for `response.cancel` frames. -/
def OutEvent.isCancel : OutEvent → Bool
  | .responseCancel => true
  | _ => false

/-- Discriminator for `input_audio_buffer.commit` frames. -/
def OutEvent.isCommit : OutEvent → Bool
  | .inputAudioCommit => true
  | _ => false

/-- Discriminator for `response.create` frames. -/
def OutEvent.isResponseCreate : OutEvent → Bool
  | .responseCreate => true
  | _ => false

/-- Discriminator for `input_audio_buffer.append` frames. -/
def OutEvent.isAppend : OutEvent → Bool
  | .inputAudioAppend _ => true
  | _ => false

/-- Discriminator for `function_call_output` item frames. -/
def OutEvent.isFunctionCallOutput : OutEvent → Bool
  | .functionCallOutput _ _ => true
  | _ => false

/-- A freshly connected session: socket open, connected flag set,
everything else at its initial value. -/
def connectedState : HookState where
  isConnected := true
  isRecording := false
  errorState := none
  wsOpen := true
  currentTranscript := ""
  currentResponseId := none
  userTranscript := ""
  assistantMessageSent := false
  processorActive := false
  streamActive := false
  audioContextActive := false
  recognitionActive := false
  nextPlayTime := 0

/- Theorems -/

lemma chunkDuration_nonneg (samples : List ℤ) : 0 ≤ chunkDuration samples := by
  have h : (0 : ℚ) ≤ (samples.length : ℚ) := by positivity
  have h2 : (0 : ℚ) < 24000 := by norm_num
  exact div_nonneg h (le_of_lt h2)

lemma playAudioChunks_head_start (npt : ℚ) (events : List (ℚ × List ℤ)) :
    ∀ s ∈ ((playAudioChunks npt events).2).head?, npt ≤ s.start := by
  cases events with
  | nil => simp [playAudioChunks]
  | cons e rest =>
    obtain ⟨ct, chunk⟩ := e
    intro s hs
    simp only [playAudioChunks, playAudioChunk, List.head?_cons, Option.mem_def,
      Option.some.injEq] at hs
    subst hs
    by_cases h : npt < ct
    · simp only [if_pos h]
      exact le_of_lt h
    · simp only [if_neg h]
      exact le_rfl

lemma playAudioChunks_chain_gap (npt : ℚ) (events : List (ℚ × List ℤ)) :
    List.Chain' (fun a b => a.start + a.duration ≤ b.start)
      (playAudioChunks npt events).2 := by
  induction events generalizing npt with
  | nil => simp [playAudioChunks]
  | cons e rest ih =>
    obtain ⟨ct, chunk⟩ := e
    simp only [playAudioChunks, playAudioChunk]
    refine List.chain'_cons'.mpr ⟨?_, ih _⟩
    intro b hb
    exact playAudioChunks_head_start _ rest b hb

lemma playAudioChunks_chain_mono (npt : ℚ) (events : List (ℚ × List ℤ)) :
    List.Chain' (fun a b => a.start ≤ b.start)
      (playAudioChunks npt events).2 := by
  induction events generalizing npt with
  | nil => simp [playAudioChunks]
  | cons e rest ih =>
    obtain ⟨ct, chunk⟩ := e
    simp only [playAudioChunks, playAudioChunk]
    refine List.chain'_cons'.mpr ⟨?_, ih _⟩
    intro b hb
    have h1 := playAudioChunks_head_start _ rest b hb
    have h2 := chunkDuration_nonneg chunk
    simp only at h1 ⊢
    linarith

/-- C1: for every sequence of audio-delta events (each carrying the
context's `currentTime` at arrival and its decoded samples) and every
initial cursor value, the buffers scheduled by `playAudioChunk` satisfy,
for every consecutive pair, `start (n+1) >= start n + duration n` (no
overlap), and in particular the scheduled start times are
non-decreasing: the buffer starts at the running `nextPlayTime` cursor
clamped up to `currentTime`, and the cursor then advances by the
buffer's duration. -/
theorem playAudioChunk_schedule_no_overlap (npt : ℚ) (events : List (ℚ × List ℤ)) :
    List.Chain' (fun a b => a.start + a.duration ≤ b.start)
      (playAudioChunks npt events).2 ∧
    List.Chain' (fun a b => a.start ≤ b.start)
      (playAudioChunks npt events).2 :=
  ⟨playAudioChunks_chain_gap npt events, playAudioChunks_chain_mono npt events⟩

lemma jsRound_nat_half (n : ℕ) : (jsRound ((n : ℚ) / 2)).toNat = (n + 1) / 2 := by
  rw [jsRound]
  have h : (n : ℚ) / 2 + 1 / 2 = ((n + 1 : ℤ) : ℚ) / ((2 : ℕ) : ℚ) := by
    push_cast
    ring
  rw [h, Rat.floor_intCast_div_natCast]
  omega

lemma resampleAudio_48_24_eq (data : List ℚ) :
    resampleAudio data 48000 24000 =
      (List.range ((data.length + 1) / 2)).map (fun i => data.getD (2 * i) 0) := by
  have hr : ((48000 : ℕ) : ℚ) / ((24000 : ℕ) : ℚ) = 2 := by norm_num
  simp only [resampleAudio, hr, reduceIte]
  rw [jsRound_nat_half]
  refine List.map_congr_left ?_
  intro i hi
  rw [List.mem_range] at hi
  have hpos : (i : ℚ) * 2 = ((2 * i : ℕ) : ℚ) := by push_cast; ring
  rw [hpos, Int.floor_natCast, Int.toNat_natCast, sub_self]
  by_cases hb : 2 * i + 1 < data.length
  · rw [if_pos hb]; ring
  · rw [if_neg hb]

lemma resampleAudio_48_24_length (data : List ℚ) :
    (resampleAudio data 48000 24000).length = (data.length + 1) / 2 := by
  rw [resampleAudio_48_24_eq, List.length_map, List.length_range]

lemma resampleAudio_48_24_get (data : List ℚ) (i : ℕ) :
    (resampleAudio data 48000 24000).getD i 0 = data.getD (2 * i) 0 := by
  rw [resampleAudio_48_24_eq]
  by_cases hi : i < (data.length + 1) / 2
  · have hi2 : i < ((List.range ((data.length + 1) / 2)).map
        (fun i => data.getD (2 * i) 0)).length := by
      rw [List.length_map, List.length_range]; exact hi
    rw [List.getD_eq_getElem _ _ hi2, List.getElem_map, List.getElem_range]
  · have hi2 : ((List.range ((data.length + 1) / 2)).map
        (fun i => data.getD (2 * i) 0)).length ≤ i := by
      rw [List.length_map, List.length_range]; omega
    rw [List.getD_eq_default _ _ hi2]
    have hout : data.length ≤ 2 * i := by omega
    rw [List.getD_eq_default _ _ hout]

/-- C5: `resampleAudio` halves a 48 kHz buffer to `round(N/2)` samples
(`(N+1)/2` with JavaScript round-half-up), every output sample is given
by linear interpolation at position `2 i` — which for the exact 2:1
ratio means sample `2 i` of the input — and `resampleAudio` with equal
source and target rates returns the input unchanged. -/
theorem resampleAudio_spec :
    (∀ data : List ℚ,
        (resampleAudio data 48000 24000).length = (data.length + 1) / 2 ∧
        ∀ i : ℕ, (resampleAudio data 48000 24000).getD i 0 = data.getD (2 * i) 0) ∧
    (∀ (rate : ℕ) (data : List ℚ), resampleAudio data rate rate = data) := by
  refine ⟨fun data => ⟨resampleAudio_48_24_length data, fun i => resampleAudio_48_24_get data i⟩, ?_⟩
  intro rate data
  simp [resampleAudio]

/-- Concatenation of a list of transcript delta strings. -/
def concatDeltas : List String → String
  | [] => ""
  | d :: ds => d ++ concatDeltas ds

/-- Discriminator for the `response.created` inbound event, the only
event that resets the sent-flag guard. -/
def InEvent.isResponseCreated : InEvent → Bool
  | .responseCreated _ _ => true
  | _ => false

/-- Remaining assistant-emission budget of the sent-flag guard. -/
def sentBudget (sent : Bool) : ℕ := if sent then 0 else 1

lemma assistantMessages_append (xs ys : List Callback) :
    assistantMessages (xs ++ ys) = assistantMessages xs ++ assistantMessages ys := by
  simp [assistantMessages]

lemma processEvents_append (st : HookState) (xs ys : List InEvent) :
    processEvents st (xs ++ ys) =
      ((processEvents (processEvents st xs).1 ys).1,
       (processEvents st xs).2.1 ++ (processEvents (processEvents st xs).1 ys).2.1,
       (processEvents st xs).2.2 ++ (processEvents (processEvents st xs).1 ys).2.2) := by
  induction xs generalizing st with
  | nil => simp [processEvents]
  | cons x xs ih =>
    simp only [List.cons_append, processEvents, List.append_eq, ih, List.append_assoc]

lemma handleEvent_transcriptDelta (st : HookState) (d : String) :
    handleEvent st (.transcriptDelta d) =
      ({ st with currentTranscript := st.currentTranscript ++ d }, [], []) := by
  by_cases hd : d = ""
  · subst hd
    simp [handleEvent, String.append_empty]
  · simp [handleEvent, hd]

lemma processEvents_transcriptDeltas (st : HookState) (ds : List String) :
    processEvents st (ds.map InEvent.transcriptDelta) =
      ({ st with currentTranscript := st.currentTranscript ++ concatDeltas ds },
       [], []) := by
  induction ds generalizing st with
  | nil => simp [processEvents, concatDeltas, String.append_empty]
  | cons d ds ih =>
    simp only [List.map_cons, processEvents, handleEvent_transcriptDelta, ih,
      concatDeltas, List.nil_append, String.append_assoc]

lemma handleEvent_sentBudget (st : HookState) (ev : InEvent)
    (h : ev.isResponseCreated = false) :
    (assistantMessages (handleEvent st ev).2.2).length +
      sentBudget (handleEvent st ev).1.assistantMessageSent ≤
      sentBudget st.assistantMessageSent := by
  cases ev with
  | responseCreated id now => simp [InEvent.isResponseCreated] at h
  | itemDone isAssistantMessage transcript =>
    rcases isAssistantMessage with _ | _
    · simp [handleEvent, assistantMessages]
    · rcases transcript with _ | tr
      · simp [handleEvent, assistantMessages]
      · by_cases htr : tr = ""
        · simp [handleEvent, htr, assistantMessages]
        · by_cases hsent : st.assistantMessageSent
          · simp [handleEvent, htr, hsent, assistantMessages]
          · simp [handleEvent, htr, hsent, assistantMessages, sentBudget]
  | userTranscriptCompleted transcript =>
    by_cases htr : transcript = "" <;>
      simp [handleEvent, htr, assistantMessages]
  | transcriptDelta delta =>
    by_cases hd : delta = "" <;> simp [handleEvent, hd, assistantMessages]
  | transcriptDone =>
    by_cases hct : st.currentTranscript = ""
    · simp [handleEvent, hct, assistantMessages]
    · by_cases hsent : st.assistantMessageSent
      · simp [handleEvent, hct, hsent, assistantMessages]
      · simp [handleEvent, hct, hsent, assistantMessages, sentBudget]
  | functionCallDone name args callId fetchResult =>
    rcases fetchResult with r | e <;> simp [handleEvent, assistantMessages]
  | _ => simp [handleEvent, assistantMessages]

lemma processEvents_sentBudget (evs : List InEvent) :
    ∀ st : HookState, (∀ e ∈ evs, e.isResponseCreated = false) →
      (assistantMessages (processEvents st evs).2.2).length +
        sentBudget (processEvents st evs).1.assistantMessageSent ≤
        sentBudget st.assistantMessageSent := by
  induction evs with
  | nil => intro st _; simp [processEvents, assistantMessages]
  | cons ev evs ih =>
    intro st hall
    have hev : ev.isResponseCreated = false := hall ev (List.mem_cons_self ev evs)
    have hrest : ∀ e ∈ evs, e.isResponseCreated = false := fun e he =>
      hall e (List.mem_cons_of_mem ev he)
    simp only [processEvents, assistantMessages_append, List.length_append]
    have h1 := handleEvent_sentBudget st ev hev
    have h2 := ih (handleEvent st ev).1 hrest
    omega

/-- C2: the completed assistant transcript is delivered to the caller
exactly once per response.  First conjunct (guard soundness): across
any inbound event sequence with no `response.created` reset, at most
one assistant message is emitted once the sent flag is accounted for.
Second conjunct (the observed dual-completion quirk): for a response
consisting of `response.created`, any transcript deltas with nonempty
concatenation, the transcript-done event, and then an item-done event
reporting a transcript for the same response, exactly one assistant
message — the accumulated transcript — reaches `onMessage`; the
`assistantMessageSentRef` guard suppresses the second emission. -/
theorem assistant_transcript_exactly_once :
    (∀ (st : HookState) (evs : List InEvent),
        (∀ e ∈ evs, e.isResponseCreated = false) →
        (assistantMessages (processEvents st evs).2.2).length ≤
          sentBudget st.assistantMessageSent) ∧
    (∀ (st : HookState) (id : Option String) (now : String)
        (ds : List String) (t : String),
        concatDeltas ds ≠ "" →
        assistantMessages (processEvents st
          (.responseCreated id now ::
            (ds.map InEvent.transcriptDelta ++
              [.transcriptDone, .itemDone true (some t)]))).2.2 =
          [concatDeltas ds]) := by
  constructor
  · intro st evs hall
    have h := processEvents_sentBudget evs st hall
    omega
  · intro st id now ds t hds
    simp only [processEvents]
    rw [processEvents_append, processEvents_transcriptDeltas]
    simp only [processEvents, handleEvent]
    simp only [String.empty_append]
    rw [if_pos]
    · by_cases ht : t = ""
      · simp [ht, assistantMessages, hds]
      · simp [ht, assistantMessages, hds]
    · exact ⟨hds, by simp⟩

/-- A disconnected session: socket absent/closed. -/
def disconnectedState : HookState :=
  { connectedState with wsOpen := false, isConnected := false }

/-- A connected session with an AI response in flight. -/
def respondingState : HookState :=
  { connectedState with currentResponseId := some "resp-7" }

/-- Outbound frames of two consecutive `stopRecording` calls. -/
def stopRecordingTwiceOut (st : HookState) : List OutEvent :=
  (stopRecording st).2.1 ++ (stopRecording (stopRecording st).1).2.1

/-- C2 witness: the exactly-once delivery at a concrete trace — a
response with two transcript deltas, the transcript-done event, and a
duplicate item-done report — and the at-most-once guard bound at a
concrete reset state. -/
theorem assistant_transcript_exactly_once_witness :
    ((assistantMessages (processEvents connectedState
        [.transcriptDone, .itemDone true (some "Hi")]).2.2).length ≤
      sentBudget connectedState.assistantMessageSent) ∧
    (concatDeltas ["Hel", "lo"] ≠ "" ∧
      assistantMessages (processEvents connectedState
        (.responseCreated (some "resp-1") "0" ::
          (["Hel", "lo"].map InEvent.transcriptDelta ++
            [.transcriptDone, .itemDone true (some "Hello")]))).2.2 =
        [concatDeltas ["Hel", "lo"]]) :=
  ⟨assistant_transcript_exactly_once.1 connectedState
      [.transcriptDone, .itemDone true (some "Hi")] (by decide),
   by decide,
   assistant_transcript_exactly_once.2 connectedState (some "resp-1") "0"
      ["Hel", "lo"] "Hello" (by decide)⟩

/-- C3 counterexample: from a freshly connected session, calling
`stopRecording` twice in a row sends the commit/response-create pair
twice — two `input_audio_buffer.commit` frames, not one — because the
function is guarded only by the socket being open (which the first
call leaves open), not by the recording flag.  This refutes the claim
that the second call is a no-op with respect to outbound events. -/
theorem stopRecording_twice_counterexample :
    stopRecordingTwiceOut connectedState =
      [.inputAudioCommit, .responseCreate, .inputAudioCommit, .responseCreate] ∧
    (stopRecordingTwiceOut connectedState).countP OutEvent.isCommit ≠ 1 ∧
    (stopRecordingTwiceOut connectedState).countP OutEvent.isResponseCreate ≠ 1 := by
  decide

/-- C3 as amended: each `stopRecording` call made while the socket is
open sends exactly one `input_audio_buffer.commit` followed by one
`response.create`; the call leaves the socket open, so a second call
in a row repeats the pair (two commits and two response-creates in
total) rather than being a no-op. -/
theorem stopRecording_open_socket_sends_pair (st : HookState)
    (h : st.wsOpen = true) :
    (stopRecording st).2.1 = [.inputAudioCommit, .responseCreate] ∧
    (stopRecording st).1.wsOpen = true ∧
    stopRecordingTwiceOut st =
      [.inputAudioCommit, .responseCreate, .inputAudioCommit, .responseCreate] := by
  refine ⟨by simp [stopRecording, h], by simp [stopRecording, h], ?_⟩
  simp [stopRecordingTwiceOut, stopRecording, h]

/-- C3 amended witness at the concrete connected session. -/
theorem stopRecording_open_socket_sends_pair_witness :
    connectedState.wsOpen = true ∧
    ((stopRecording connectedState).2.1 =
        [.inputAudioCommit, .responseCreate] ∧
      (stopRecording connectedState).1.wsOpen = true ∧
      stopRecordingTwiceOut connectedState =
        [.inputAudioCommit, .responseCreate, .inputAudioCommit, .responseCreate]) :=
  ⟨by decide, stopRecording_open_socket_sends_pair connectedState (by decide)⟩

lemma recordFrameEvents_no_cancel (st : HookState) (f : List ℚ) (rate : ℕ) :
    (recordFrameEvents st f rate).countP OutEvent.isCancel = 0 := by
  by_cases h : st.wsOpen <;> simp [recordFrameEvents, h, OutEvent.isCancel]

lemma frames_no_cancel (st : HookState) (rate : ℕ) (frames : List (List ℚ)) :
    (frames.flatMap fun f => recordFrameEvents st f rate).countP
      OutEvent.isCancel = 0 := by
  induction frames with
  | nil => simp
  | cons f fs ih =>
    simp [List.flatMap_cons, List.countP_append, ih, recordFrameEvents_no_cancel]

/-- The full outbound trace of one recording cycle start: the frames
sent by `startRecording` itself (microphone granted), followed by the
append frames of the capture callbacks. -/
def startRecordingTrace (st : HookState) (frames : List (List ℚ))
    (sampleRate : ℕ) : List OutEvent :=
  (startRecording st true).2.1 ++
    frames.flatMap fun f =>
      recordFrameEvents (startRecording st true).1 f sampleRate

/-- C4: starting a recording over an open socket while a response is
in flight (truthy response id ref) sends exactly one `response.cancel`,
as the very first outbound frame — before the buffer clear and before
every `input_audio_buffer.append` of the new recording; with no
response in flight no cancel is sent at all, and capture still begins
(recording flag set) in either case. -/
theorem startRecording_cancel_before_appends (st : HookState)
    (frames : List (List ℚ)) (sampleRate : ℕ) (hws : st.wsOpen = true) :
    (optTruthy st.currentResponseId = true →
        (startRecordingTrace st frames sampleRate).countP OutEvent.isCancel = 1 ∧
        (startRecordingTrace st frames sampleRate).head? =
          some OutEvent.responseCancel) ∧
    (optTruthy st.currentResponseId = false →
        (startRecordingTrace st frames sampleRate).countP OutEvent.isCancel = 0) ∧
    (startRecording st true).1.isRecording = true := by
  refine ⟨?_, ?_, by simp [startRecording]⟩
  · intro hresp
    unfold startRecordingTrace
    simp [startRecording, hws, hresp, List.countP_append, frames_no_cancel,
      OutEvent.isCancel]
  · intro hresp
    unfold startRecordingTrace
    simp [startRecording, hws, hresp, List.countP_append, frames_no_cancel,
      OutEvent.isCancel]

/-- C4 witness: concrete instantiations of both branches — a session
with an in-flight response (one leading cancel) and a session with
none (zero cancels, capture begins). -/
theorem startRecording_cancel_before_appends_witness :
    (respondingState.wsOpen = true ∧
      optTruthy respondingState.currentResponseId = true ∧
      ((startRecordingTrace respondingState [[1/2]] 48000).countP
          OutEvent.isCancel = 1 ∧
        (startRecordingTrace respondingState [[1/2]] 48000).head? =
          some OutEvent.responseCancel)) ∧
    (connectedState.wsOpen = true ∧
      optTruthy connectedState.currentResponseId = false ∧
      (startRecordingTrace connectedState [[1/2]] 48000).countP
        OutEvent.isCancel = 0 ∧
      (startRecording connectedState true).1.isRecording = true) :=
  ⟨⟨by decide, by decide,
    (startRecording_cancel_before_appends respondingState [[1/2]] 48000
      (by decide)).1 (by decide)⟩,
   by decide, by decide,
   (startRecording_cancel_before_appends connectedState [[1/2]] 48000
      (by decide)).2.1 (by decide),
   (startRecording_cancel_before_appends connectedState [[1/2]] 48000
      (by decide)).2.2⟩

/-- C6 counterexample: when microphone access is denied in a freshly
connected session, `startRecording` invokes no callback at all — in
particular `onError` is never called, refuting the claim that the
failure is surfaced through the error callback.  The failure lands
only in the hook's error state field. -/
theorem mic_denied_counterexample :
    (startRecording connectedState false).2.2 = [] ∧
    errorCallbacks (startRecording connectedState false).2.2 = [] ∧
    (startRecording connectedState false).1.isRecording = false ∧
    (startRecording connectedState false).1.errorState =
      some "Failed to access microphone" := by
  decide

/-- C6 as amended: when microphone access is denied, `startRecording`
surfaces the failure only through the hook's error state field (set to
"Failed to access microphone"); the `onError` callback is not invoked
(no callback is), the recording flag is left exactly as it was (never
set), and the connected flag and socket are untouched, so the session
remains usable for text messages. -/
theorem mic_denied_sets_error_state (st : HookState) :
    (startRecording st false).1.errorState =
      some "Failed to access microphone" ∧
    (startRecording st false).1.isRecording = st.isRecording ∧
    (startRecording st false).1.isConnected = st.isConnected ∧
    (startRecording st false).1.wsOpen = st.wsOpen ∧
    (startRecording st false).2.2 = [] := by
  simp only [startRecording]
  split_ifs <;> simp_all

/-- C7: an inbound protocol `error` event invokes `onError` with the
service-reported message and nothing else: no outbound frame is sent
and the state — in particular the connected flag and the socket — is
completely unchanged, so an error such as "rate_limit_exceeded"
leaves the session connected. -/
theorem error_event_reported_keeps_connection (st : HookState)
    (message : String) :
    handleEvent st (.errorEvent message) = (st, [], [.onError message]) := rfl

/-- C8: when the `/api/functions` fetch throws while handling
`response.function_call_arguments.done`, the error is swallowed: the
caller still gets the `onFunctionCall` notification, but no
`function_call_output` item is sent back over the socket, `onError`
is not invoked, and the state — including the open connection — is
unchanged, so event handling simply continues. -/
theorem function_call_failure_swallowed (st : HookState)
    (name args callId e : String) :
    handleEvent st (.functionCallDone name args callId (.error e)) =
      (st, [], [.onFunctionCall name args]) := rfl

/-- C9: every `stopRecording` call emits exactly one user-role
`onMessage`, whose content is the captured browser speech-recognition
transcript when nonempty and the placeholder "[Audio message]"
otherwise — and this happens even when the socket is not open, in
which case no commit/response-create frame is sent. -/
theorem stopRecording_emits_user_message (st : HookState) :
    userMessages (stopRecording st).2.2 =
      [if st.userTranscript ≠ "" then st.userTranscript
       else "[Audio message]"] ∧
    (st.wsOpen = false → (stopRecording st).2.1 = []) := by
  constructor
  · simp [stopRecording, userMessages]
  · intro h
    simp [stopRecording, h]

/-- C9 witness: on a disconnected session with no captured transcript,
the placeholder user message is emitted and nothing is sent. -/
theorem stopRecording_emits_user_message_witness :
    userMessages (stopRecording disconnectedState).2.2 = ["[Audio message]"] ∧
    (stopRecording disconnectedState).2.1 = [] := by
  have h := stopRecording_emits_user_message disconnectedState
  exact ⟨by simpa using h.1, h.2 (by decide)⟩

/-- C10: `sendMessage` while the socket is not open is a silent no-op:
no outbound frame, no callback (in particular no `onError`), and the
entire hook state — connected flag, recording flag, transcript
accumulator, response id, error state — is returned unchanged. -/
theorem sendMessage_closed_socket_noop (st : HookState) (text : String)
    (h : st.wsOpen = false) :
    sendMessage st text = (st, [], []) := by
  simp [sendMessage, h]

/-- C10 witness at a concrete disconnected session. -/
theorem sendMessage_closed_socket_noop_witness :
    disconnectedState.wsOpen = false ∧
    sendMessage disconnectedState "hello" = (disconnectedState, [], []) :=
  ⟨by decide, sendMessage_closed_socket_noop disconnectedState "hello" (by decide)⟩

end Realtime
